import Mathlib

/-!
Verification of the toxicity scoring and aggregation core of the
toxic-news-pipeline repository.

The embedding models:
  * `ToxicityClassifier._split_text` and Python's `str.split()`
    (src/models/classifier.py, lines 55-61);
  * `ToxicityClassifier.predict` (src/models/classifier.py, lines 63-89),
    with the segment scorer as an opaque function and probabilities as
    exact rationals;
  * `ToxicityPredictor.predict_text`, `predict_all_articles`,
    `get_statistics_by_site` and `display_statistics`
    (src/analytics/analytics.py), with MongoDB insertion modelled as an
    oracle saying whether each insert succeeds.

Text is modelled as `List Char`; probabilities and scores as `ℚ`.
-/

namespace ToxicPipeline

/-- Python `str.split()` whitespace characters (space, tab, newline,
carriage return, vertical tab, form feed). -/
def isPySpace (c : Char) : Bool :=
  c = ' ' || c = '\t' || c = '\n' || c = '\r' || c = '\x0b' || c = '\x0c'

/-- Worker for `pySplit`: walks the characters accumulating the current
word (reversed) in `acc`, emitting a word at each whitespace boundary. -/
def pySplitGo : List Char → List Char → List (List Char)
  | [], acc => if acc = [] then [] else [acc.reverse]
  | c :: rest, acc =>
    if isPySpace c then
      if acc = [] then pySplitGo rest [] else acc.reverse :: pySplitGo rest []
    else pySplitGo rest (c :: acc)

/-- Python `text.split()` with no separator argument: split on runs of
whitespace, discarding empty strings (classifier.py line 57). -/
def pySplit (s : List Char) : List (List Char) := pySplitGo s []

/-- Python `" ".join(ws)`: words joined by single spaces
(classifier.py line 60). -/
def joinSpace : List (List Char) → List Char
  | [] => []
  | [w] => w
  | w :: ws => w ++ ' ' :: joinSpace ws

/-- Fuelled chunking: `chunkAux fuel k l` groups `l` into consecutive
blocks of `k` elements. The fuel makes the recursion structural; with
`fuel ≥ l.length` and `k ≥ 1` it computes the true chunking, mirroring
`range(0, len(words), max_words)` in classifier.py lines 59-60. -/
def chunkAux {α : Type} : Nat → Nat → List α → List (List α)
  | 0, _, _ => []
  | _ + 1, _, [] => []
  | fuel + 1, k, x :: xs => (x :: xs).take k :: chunkAux fuel k ((x :: xs).drop k)

/-- Consecutive blocks of at most `k` elements of `l`, in order. -/
def chunks {α : Type} (k : Nat) (l : List α) : List (List α) :=
  chunkAux l.length k l

/-- `ToxicityClassifier._split_text(text, max_words)`
(classifier.py lines 55-61): split `text` into words, group consecutive
words into blocks of at most `maxWords`, and join each block with single
spaces. -/
def splitText (text : List Char) (maxWords : Nat) : List (List Char) :=
  (chunks maxWords (pySplit text)).map joinSpace

/-! ### Lemmas about the word splitter -/

theorem pySplitGo_word (w : List Char) (hw : ∀ c ∈ w, isPySpace c = false) :
    ∀ rest acc, pySplitGo (w ++ rest) acc = pySplitGo rest (w.reverse ++ acc) := by
  induction w with
  | nil => intro rest acc; simp
  | cons c w ih =>
    intro rest acc
    have hc : isPySpace c = false := hw c (by simp)
    have hw' : ∀ x ∈ w, isPySpace x = false := fun x hx => hw x (by simp [hx])
    simp [pySplitGo, hc, ih hw', List.append_assoc]

theorem pySplitGo_words (s : List Char) :
    ∀ acc, (∀ c ∈ acc, isPySpace c = false) →
      ∀ w ∈ pySplitGo s acc, w ≠ [] ∧ ∀ c ∈ w, isPySpace c = false := by
  induction s with
  | nil =>
    intro acc hacc w hw
    by_cases h : acc = []
    · simp [pySplitGo, h] at hw
    · simp [pySplitGo, h] at hw
      subst hw
      refine ⟨by simp [h], fun c hc => hacc c ?_⟩
      simpa using hc
  | cons c rest ih =>
    intro acc hacc w hw
    by_cases hc : isPySpace c = true
    · by_cases ha : acc = []
      · rw [pySplitGo] at hw
        simp only [hc, if_true, ha, if_pos rfl] at hw
        exact ih [] (by simp) w hw
      · rw [pySplitGo] at hw
        simp only [hc, if_true, if_neg ha, List.mem_cons] at hw
        rcases hw with hw | hw
        · subst hw
          refine ⟨by simp [ha], fun x hx => hacc x ?_⟩
          simpa using hx
        · exact ih [] (by simp) w hw
    · rw [pySplitGo] at hw
      simp only [hc, if_false] at hw
      refine ih (c :: acc) ?_ w hw
      intro x hx
      rcases List.mem_cons.mp hx with h | h
      · subst h; simpa using hc
      · exact hacc x h

theorem pySplit_words (s : List Char) :
    ∀ w ∈ pySplit s, w ≠ [] ∧ ∀ c ∈ w, isPySpace c = false :=
  pySplitGo_words s [] (by simp)

theorem pySplitGo_eq_nil (s : List Char) :
    ∀ acc, (pySplitGo s acc = [] ↔ (acc = [] ∧ ∀ c ∈ s, isPySpace c = true)) := by
  induction s with
  | nil =>
    intro acc
    by_cases h : acc = [] <;> simp [pySplitGo, h]
  | cons c rest ih =>
    intro acc
    by_cases hc : isPySpace c = true
    · by_cases ha : acc = [] <;> simp [pySplitGo, hc, ha, ih]
    · simp [pySplitGo, hc, ih]

theorem pySplit_eq_nil_iff (s : List Char) :
    pySplit s = [] ↔ s.all isPySpace = true := by
  rw [pySplit, pySplitGo_eq_nil]
  simp [List.all_eq_true]

theorem pySplit_joinSpace (ws : List (List Char))
    (h : ∀ w ∈ ws, w ≠ [] ∧ ∀ c ∈ w, isPySpace c = false) :
    pySplit (joinSpace ws) = ws := by
  induction ws with
  | nil => rfl
  | cons w ws ih =>
    obtain ⟨hne, hsp⟩ := h w (by simp)
    cases ws with
    | nil =>
      show pySplitGo (joinSpace [w]) [] = [w]
      have hw := pySplitGo_word w hsp [] []
      simp only [List.append_nil] at hw
      simp [joinSpace, hw, pySplitGo, hne]
    | cons w2 ws2 =>
      have hjs : joinSpace (w :: w2 :: ws2) = w ++ ' ' :: joinSpace (w2 :: ws2) := rfl
      show pySplitGo (joinSpace (w :: w2 :: ws2)) [] = w :: w2 :: ws2
      rw [hjs, pySplitGo_word w hsp]
      rw [pySplitGo]
      have hsp' : isPySpace ' ' = true := rfl
      have hrev : w.reverse ≠ [] := by simp [hne]
      simp only [hsp', if_true, List.append_nil, if_neg hrev, List.reverse_reverse]
      have hind := ih (fun x hx => h x (by simp [hx]))
      rw [pySplit] at hind
      rw [hind]

/-! ### Lemmas about chunking -/

theorem chunkAux_flatten {α : Type} (k : Nat) (hk : 1 ≤ k) :
    ∀ fuel (l : List α), l.length ≤ fuel → (chunkAux fuel k l).flatten = l := by
  intro fuel
  induction fuel with
  | zero =>
    intro l hl
    have : l = [] := List.length_eq_zero.mp (Nat.le_zero.mp hl)
    subst this
    rfl
  | succ fuel ih =>
    intro l hl
    cases l with
    | nil => rfl
    | cons x xs =>
      rw [chunkAux, List.flatten_cons, ih ((x :: xs).drop k) ?_, List.take_append_drop]
      have h1 : (x :: xs).length ≤ fuel + 1 := hl
      simp only [List.length_drop]
      omega

theorem chunkAux_mem {α : Type} (k : Nat) (hk : 1 ≤ k) :
    ∀ fuel (l : List α), l.length ≤ fuel →
      ∀ c ∈ chunkAux fuel k l, c ≠ [] ∧ c.length ≤ k := by
  intro fuel
  induction fuel with
  | zero =>
    intro l hl c hc
    have : l = [] := List.length_eq_zero.mp (Nat.le_zero.mp hl)
    subst this
    simp [chunkAux] at hc
  | succ fuel ih =>
    intro l hl c hc
    cases l with
    | nil => simp [chunkAux] at hc
    | cons x xs =>
      rw [chunkAux] at hc
      rcases List.mem_cons.mp hc with h | h
      · subst h
        constructor
        · cases k with
          | zero => omega
          | succ k => simp [List.take_cons]
        · simp
      · refine ih ((x :: xs).drop k) ?_ c h
        have h1 : (x :: xs).length ≤ fuel + 1 := hl
        simp only [List.length_drop]
        omega

theorem chunkAux_length {α : Type} (k : Nat) (hk : 1 ≤ k) :
    ∀ fuel (l : List α), l.length ≤ fuel →
      (chunkAux fuel k l).length = (l.length + k - 1) / k := by
  intro fuel
  induction fuel with
  | zero =>
    intro l hl
    have : l = [] := List.length_eq_zero.mp (Nat.le_zero.mp hl)
    subst this
    show (0 : Nat) = (0 + k - 1) / k
    rw [Nat.zero_add]
    exact (Nat.div_eq_of_lt (by omega)).symm
  | succ fuel ih =>
    intro l hl
    cases l with
    | nil =>
      show (0 : Nat) = (0 + k - 1) / k
      rw [Nat.zero_add]
      exact (Nat.div_eq_of_lt (by omega)).symm
    | cons x xs =>
      rw [chunkAux]
      simp only [List.length_cons]
      rw [ih ((x :: xs).drop k) ?_]
      · simp only [List.length_drop, List.length_cons]
        set n := xs.length + 1 with hn
        by_cases h : n ≤ k
        · have h0 : n - k = 0 := by omega
          rw [h0]
          have lhs : (0 + k - 1) / k = 0 := Nat.div_eq_of_lt (by omega)
          have rhs : (n + k - 1) / k = 1 := by
            apply Nat.div_eq_of_lt_le
            · omega
            · omega
          omega
        · have e1 : n - k + k - 1 = n - 1 := by omega
          have e2 : n + k - 1 = (n - 1) + k := by omega
          rw [e1, e2, Nat.add_div_right _ (by omega)]
      · have h1 : (x :: xs).length ≤ fuel + 1 := hl
        simp only [List.length_drop]
        omega

theorem chunks_flatten {α : Type} (k : Nat) (hk : 1 ≤ k) (l : List α) :
    (chunks k l).flatten = l :=
  chunkAux_flatten k hk l.length l le_rfl

theorem chunks_mem {α : Type} (k : Nat) (hk : 1 ≤ k) (l : List α) :
    ∀ c ∈ chunks k l, c ≠ [] ∧ c.length ≤ k :=
  chunkAux_mem k hk l.length l le_rfl

theorem chunks_length {α : Type} (k : Nat) (hk : 1 ≤ k) (l : List α) :
    (chunks k l).length = (l.length + k - 1) / k :=
  chunkAux_length k hk l.length l le_rfl

/-! ### Joining chunks back together -/

theorem joinSpace_append (xs ys : List (List Char)) (hxs : xs ≠ []) (hys : ys ≠ []) :
    joinSpace (xs ++ ys) = joinSpace xs ++ ' ' :: joinSpace ys := by
  induction xs with
  | nil => exact absurd rfl hxs
  | cons w xs ih =>
    cases xs with
    | nil =>
      cases ys with
      | nil => exact absurd rfl hys
      | cons y ys => simp [joinSpace]
    | cons w2 xs2 =>
      have step : joinSpace ((w :: w2 :: xs2) ++ ys) =
          w ++ ' ' :: joinSpace ((w2 :: xs2) ++ ys) := by
        cases ys <;> rfl
      rw [step, ih (by simp)]
      simp [joinSpace]

theorem joinSpace_map_flatten (css : List (List (List Char)))
    (h : ∀ c ∈ css, c ≠ []) :
    joinSpace (css.map joinSpace) = joinSpace css.flatten := by
  induction css with
  | nil => rfl
  | cons c css ih =>
    cases css with
    | nil => simp [joinSpace]
    | cons c2 css2 =>
      have hc : c ≠ [] := h c (by simp)
      have hflat : (c2 :: css2).flatten ≠ [] := by
        have hc2 : c2 ≠ [] := h c2 (by simp)
        simp only [List.flatten_cons]
        intro hcontra
        exact hc2 (List.append_eq_nil.mp hcontra).1
      have lhs : joinSpace ((c :: c2 :: css2).map joinSpace) =
          joinSpace c ++ ' ' :: joinSpace ((c2 :: css2).map joinSpace) := rfl
      rw [lhs, ih (fun x hx => h x (by simp [hx]))]
      have rhs_eq : (c :: c2 :: css2).flatten = c ++ (c2 :: css2).flatten := rfl
      rw [rhs_eq, joinSpace_append c ((c2 :: css2).flatten) hc hflat]

/-- C6 words-are-good helper: every chunk of the word list of `text`
consists of nonempty, whitespace-free words. -/
theorem chunk_words_good (text : List Char) (k : Nat) (hk : 1 ≤ k) :
    ∀ c ∈ chunks k (pySplit text), ∀ w ∈ c, w ≠ [] ∧ ∀ ch ∈ w, isPySpace ch = false := by
  intro c hc w hw
  have hmem : w ∈ (chunks k (pySplit text)).flatten := by
    exact List.mem_flatten.mpr ⟨c, hc, hw⟩
  rw [chunks_flatten k hk] at hmem
  exact pySplit_words text w hmem

/-- C6: for every text and every positive `max_words` bound `k`,
`_split_text` partitions the whitespace words of the text into consecutive
chunks of at most `k` words each, in order: re-splitting the single-space
concatenation of the chunks gives back exactly the original word sequence,
each chunk re-splits to its own word group (no word split, duplicated or
dropped), the number of chunks is `⌈wordCount / k⌉`, and a whitespace-only
text yields no chunks. -/
theorem splitText_spec (text : List Char) (k : Nat) (hk : 1 ≤ k) :
    pySplit (joinSpace (splitText text k)) = pySplit text ∧
    (splitText text k).map pySplit = chunks k (pySplit text) ∧
    (chunks k (pySplit text)).flatten = pySplit text ∧
    (∀ c ∈ chunks k (pySplit text), c ≠ [] ∧ c.length ≤ k) ∧
    (splitText text k).length = ((pySplit text).length + k - 1) / k ∧
    (text.all isPySpace = true → splitText text k = []) := by
  have hgood := chunk_words_good text k hk
  have hne : ∀ c ∈ chunks k (pySplit text), c ≠ [] :=
    fun c hc => (chunks_mem k hk (pySplit text) c hc).1
  have hmap : (splitText text k).map pySplit = chunks k (pySplit text) := by
    rw [splitText, List.map_map]
    have : ∀ c ∈ chunks k (pySplit text), (pySplit ∘ joinSpace) c = c := by
      intro c hc
      exact pySplit_joinSpace c (hgood c hc)
    exact List.map_congr_left this |>.trans (List.map_id _)
  refine ⟨?_, hmap, chunks_flatten k hk _, chunks_mem k hk _, ?_, ?_⟩
  · rw [splitText, joinSpace_map_flatten _ hne, chunks_flatten k hk]
    exact pySplit_joinSpace _ (pySplit_words text)
  · rw [splitText, List.length_map, chunks_length k hk]
  · intro hall
    have : pySplit text = [] := (pySplit_eq_nil_iff text).mpr hall
    rw [splitText, this]
    rfl

/-- C6 witness: the theorem evaluated on the concrete text "a b c"
with `max_words = 2`. -/
theorem splitText_spec_witness :
    pySplit (joinSpace (splitText ("a b c".toList) 2)) = pySplit ("a b c".toList) ∧
    (splitText ("a b c".toList) 2).map pySplit = chunks 2 (pySplit ("a b c".toList)) ∧
    (chunks 2 (pySplit ("a b c".toList))).flatten = pySplit ("a b c".toList) ∧
    (∀ c ∈ chunks 2 (pySplit ("a b c".toList)), c ≠ [] ∧ c.length ≤ 2) ∧
    (splitText ("a b c".toList) 2).length = ((pySplit ("a b c".toList)).length + 2 - 1) / 2 ∧
    (("a b c".toList).all isPySpace = true → splitText ("a b c".toList) 2 = []) :=
  splitText_spec ("a b c".toList) 2 (by decide)

/-! ### The classifier (src/models/classifier.py) -/

/-- Python `round` at integer precision: round half to even. -/
def roundHalfEven (q : ℚ) : ℤ :=
  if q - ⌊q⌋ < 1/2 then ⌊q⌋
  else if 1/2 < q - ⌊q⌋ then ⌊q⌋ + 1
  else if ⌊q⌋ % 2 = 0 then ⌊q⌋ else ⌊q⌋ + 1

/-- Python `round(q, 3)` (classifier.py lines 81, 86). -/
def round3 (q : ℚ) : ℚ := (roundHalfEven (q * 1000) : ℚ) / 1000

/-- Python `round(q, 2)` (analytics.py lines 180-182). -/
def round2 (q : ℚ) : ℚ := (roundHalfEven (q * 100) : ℚ) / 100

/-- `np.mean` of a list of rationals: sum divided by length. -/
def listMean (l : List ℚ) : ℚ := l.sum / (l.length : ℚ)

/-- Python `max()` over a list: `none` models the `ValueError` raised on
an empty sequence. -/
def pyMax : List ℚ → Option ℚ
  | [] => none
  | x :: xs => some (xs.foldl max x)

/-- Default `TOXIC_SLIGHTLY_THRESHOLD` (classifier.py line 12). -/
def THRESHOLD_SLIGHTLY_TOXIC : ℚ := 3/10

/-- Default `TOXIC_VERY_THRESHOLD` (classifier.py line 13). -/
def THRESHOLD_VERY_TOXIC : ℚ := 65/100

/-- Default `TOXIC_ARTICLE_THRESHOLD` (classifier.py line 14). -/
def ARTICLE_THRESHOLD : ℚ := 1/2

/-- Per-segment toxic score: `np.mean([seg[i] for i in self.toxic_labels])`
(classifier.py line 68). A segment's scorer output is a list of
probabilities indexed by label id. -/
def segToxicScore (toxicLabels : List Nat) (seg : List ℚ) : ℚ :=
  listMean (toxicLabels.map (fun i => seg.getD i 0))

/-- The structured result of `ToxicityClassifier.predict`
(classifier.py lines 84-89). -/
structure PredictResult where
  prediction : String
  confidence : ℚ
  toxicity_level : String
  per_label : List ℚ
deriving DecidableEq

/-- The document toxic score of classifier.py line 68:
`max` over segments of the per-segment toxic score; `none` when the
segment list is empty (Python `max([])` raises). -/
def docToxicScore (scorer : List Char → List ℚ) (toxicLabels : List Nat)
    (text : List Char) : Option ℚ :=
  pyMax (((splitText text 100).map scorer).map (segToxicScore toxicLabels))

/-- `ToxicityClassifier.predict` (classifier.py lines 63-89), with the
segment scorer `_predict_raw` as an opaque function from a segment to its
per-label probabilities and the label vocabulary of size `numLabels`.
`none` models the `ValueError` of `max([])` on an empty segment list. -/
def predict (scorer : List Char → List ℚ) (toxicLabels : List Nat) (numLabels : Nat)
    (text : List Char) : Option PredictResult :=
  let segment_probs := (splitText text 100).map scorer
  match pyMax (segment_probs.map (segToxicScore toxicLabels)) with
  | none => none
  | some toxic_score =>
    some { prediction := if ARTICLE_THRESHOLD ≤ toxic_score then "toxic" else "non_toxic"
           confidence := round3 toxic_score
           toxicity_level :=
             if THRESHOLD_VERY_TOXIC ≤ toxic_score then "very_toxic"
             else if THRESHOLD_SLIGHTLY_TOXIC ≤ toxic_score then "slightly_toxic"
             else "non_toxic"
           per_label := (List.range numLabels).map
             (fun i => round3 (listMean (segment_probs.map (fun seg => seg.getD i 0)))) }

/-! ### Lemmas about `pyMax` -/

theorem foldl_max_le (xs : List ℚ) : ∀ a, a ≤ xs.foldl max a ∧ ∀ x ∈ xs, x ≤ xs.foldl max a := by
  induction xs with
  | nil => intro a; exact ⟨le_refl a, by simp⟩
  | cons y ys ih =>
    intro a
    obtain ⟨h1, h2⟩ := ih (max a y)
    refine ⟨le_trans (le_max_left a y) h1, ?_⟩
    intro x hx
    rcases List.mem_cons.mp hx with h | h
    · subst h; exact le_trans (le_max_right a x) h1
    · exact h2 x h

theorem foldl_max_mem (xs : List ℚ) : ∀ a, xs.foldl max a = a ∨ xs.foldl max a ∈ xs := by
  induction xs with
  | nil => intro a; exact Or.inl rfl
  | cons y ys ih =>
    intro a
    rcases ih (max a y) with h | h
    · rcases max_choice a y with hm | hm
      · exact Or.inl (by rw [List.foldl_cons, h, hm])
      · exact Or.inr (by rw [List.foldl_cons, h, hm]; exact List.mem_cons_self y ys)
    · exact Or.inr (List.mem_cons_of_mem y h)

theorem pyMax_spec (l : List ℚ) (m : ℚ) (h : pyMax l = some m) :
    m ∈ l ∧ ∀ x ∈ l, x ≤ m := by
  cases l with
  | nil => simp [pyMax] at h
  | cons x xs =>
    simp only [pyMax, Option.some_inj] at h
    subst h
    constructor
    · rcases foldl_max_mem xs x with h | h
      · rw [h]; exact List.mem_cons_self x xs
      · exact List.mem_cons_of_mem x h
    · intro y hy
      obtain ⟨h1, h2⟩ := foldl_max_le xs x
      rcases List.mem_cons.mp hy with h | h
      · subst h; exact h1
      · exact h2 y h

theorem pyMax_isSome (l : List ℚ) (h : l ≠ []) : ∃ m, pyMax l = some m := by
  cases l with
  | nil => exact absurd rfl h
  | cons x xs => exact ⟨xs.foldl max x, rfl⟩

/-- A nonempty word list yields a nonempty chunk list. -/
theorem chunks_ne_nil {α : Type} (k : Nat) (l : List α) (h : l ≠ []) :
    chunks k l ≠ [] := by
  cases l with
  | nil => exact absurd rfl h
  | cons x xs => simp [chunks, chunkAux]

theorem splitText_ne_nil (text : List Char) (k : Nat) (h : pySplit text ≠ []) :
    splitText text k ≠ [] := by
  rw [splitText]
  simp only [ne_eq, List.map_eq_nil_iff]
  exact chunks_ne_nil k _ h

/-! ### Claims about `predict` -/

/-- C2: for every non-empty text and every segment-scorer output, each
segment's toxic score is the arithmetic mean of the segment's
probabilities restricted to the toxic label set, and the document toxic
score (the confidence before rounding to 3 decimals) is the maximum of
the segment toxic scores: it bounds every segment score, is attained by
some segment, and for a single-segment document equals that segment's
score. -/
theorem predict_doc_score_max (scorer : List Char → List ℚ) (toxicLabels : List Nat)
    (numLabels : Nat) (text : List Char) (hw : pySplit text ≠ []) :
    ∃ s, docToxicScore scorer toxicLabels text = some s ∧
      (∀ seg ∈ splitText text 100, segToxicScore toxicLabels (scorer seg) ≤ s) ∧
      (∃ seg ∈ splitText text 100, segToxicScore toxicLabels (scorer seg) = s) ∧
      (∀ seg, segToxicScore toxicLabels (scorer seg) =
        (toxicLabels.map (fun i => (scorer seg).getD i 0)).sum / (toxicLabels.length : ℚ)) ∧
      ((splitText text 100).length = 1 →
        ∀ seg ∈ splitText text 100, s = segToxicScore toxicLabels (scorer seg)) ∧
      (∀ r, predict scorer toxicLabels numLabels text = some r → r.confidence = round3 s) := by
  have h1 : splitText text 100 ≠ [] := splitText_ne_nil text 100 hw
  obtain ⟨s, hs⟩ := pyMax_isSome (((splitText text 100).map scorer).map (segToxicScore toxicLabels))
    (by simp [h1])
  obtain ⟨hmem, hle⟩ := pyMax_spec _ _ hs
  simp only [List.map_map, List.mem_map, Function.comp] at hmem hle
  obtain ⟨seg0, hseg0, hseg0s⟩ := hmem
  refine ⟨s, hs, ?_, ⟨seg0, hseg0, hseg0s⟩, ?_, ?_, ?_⟩
  · intro seg hseg
    exact hle _ ⟨seg, hseg, rfl⟩
  · intro seg
    rw [segToxicScore, listMean, List.length_map]
  · intro hlen seg hseg
    have : splitText text 100 = [seg0] := by
      cases hsp : splitText text 100 with
      | nil => rw [hsp] at hseg0; exact absurd hseg0 (List.not_mem_nil seg0)
      | cons a l =>
        rw [hsp] at hlen hseg0
        cases l with
        | nil =>
          rcases List.mem_singleton.mp hseg0 with h
          rw [h]
        | cons b l2 => simp at hlen
    rw [this] at hseg
    rw [List.mem_singleton.mp hseg]
    exact hseg0s.symm
  · intro r hr
    simp only [predict] at hr
    rw [hs] at hr
    simp only [Option.some_inj] at hr
    rw [← hr]

/-- C2 witness: the theorem evaluated at a concrete scorer and text. -/
theorem predict_doc_score_max_witness :
    pySplit ("a".toList) ≠ [] ∧
    (∃ s, docToxicScore (fun _ : List Char => [(4:ℚ)/5]) [0] ("a".toList) = some s ∧
      (∀ seg ∈ splitText ("a".toList) 100,
        segToxicScore [0] ((fun _ : List Char => [(4:ℚ)/5]) seg) ≤ s) ∧
      (∃ seg ∈ splitText ("a".toList) 100,
        segToxicScore [0] ((fun _ : List Char => [(4:ℚ)/5]) seg) = s) ∧
      (∀ seg : List Char, segToxicScore [0] ((fun _ : List Char => [(4:ℚ)/5]) seg) =
        (([0] : List Nat).map
          (fun i => ((fun _ : List Char => [(4:ℚ)/5]) seg).getD i 0)).sum /
          (([0] : List Nat).length : ℚ)) ∧
      ((splitText ("a".toList) 100).length = 1 →
        ∀ seg ∈ splitText ("a".toList) 100,
          s = segToxicScore [0] ((fun _ : List Char => [(4:ℚ)/5]) seg)) ∧
      (∀ r, predict (fun _ : List Char => [(4:ℚ)/5]) [0] 1 ("a".toList) = some r →
        r.confidence = round3 s)) :=
  ⟨by decide, predict_doc_score_max (fun _ : List Char => [(4:ℚ)/5]) [0] 1 ("a".toList) (by decide)⟩

/-- C3: with default thresholds the `toxicity_level` returned by
`predict` is a step function of the document toxic score: `[0, 0.3)`
gives `non_toxic`, `[0.3, 0.65)` gives `slightly_toxic`, and
`[0.65, 1]` gives `very_toxic` (each upper class includes its left
boundary). -/
theorem predict_level_step (scorer : List Char → List ℚ) (toxicLabels : List Nat)
    (numLabels : Nat) (text : List Char) (s : ℚ) (r : PredictResult)
    (hs : docToxicScore scorer toxicLabels text = some s)
    (hr : predict scorer toxicLabels numLabels text = some r) :
    (0 ≤ s → s < 3/10 → r.toxicity_level = "non_toxic") ∧
    (3/10 ≤ s → s < 65/100 → r.toxicity_level = "slightly_toxic") ∧
    (65/100 ≤ s → s ≤ 1 → r.toxicity_level = "very_toxic") := by
  rw [docToxicScore] at hs
  simp only [predict] at hr
  rw [hs] at hr
  simp only [Option.some_inj] at hr
  subst hr
  refine ⟨?_, ?_, ?_⟩
  · intro h0 h1
    have hv : ¬(THRESHOLD_VERY_TOXIC ≤ s) := by rw [THRESHOLD_VERY_TOXIC]; linarith
    have hsl : ¬(THRESHOLD_SLIGHTLY_TOXIC ≤ s) := by rw [THRESHOLD_SLIGHTLY_TOXIC]; linarith
    simp [hv, hsl]
  · intro h0 h1
    have hv : ¬(THRESHOLD_VERY_TOXIC ≤ s) := by rw [THRESHOLD_VERY_TOXIC]; linarith
    have hsl : THRESHOLD_SLIGHTLY_TOXIC ≤ s := by rw [THRESHOLD_SLIGHTLY_TOXIC]; linarith
    simp [hv, hsl]
  · intro h0 h1
    have hv : THRESHOLD_VERY_TOXIC ≤ s := by rw [THRESHOLD_VERY_TOXIC]; linarith
    simp [hv]

/-- C3 witness: document score 4/5 lands in the `very_toxic` class. -/
theorem predict_level_step_witness :
    (⟨"toxic", 4/5, "very_toxic", [4/5]⟩ : PredictResult).toxicity_level = "very_toxic" := by
  have hs : docToxicScore (fun _ => [(4:ℚ)/5]) [0] ("a".toList) = some (4/5) := by
    simp [docToxicScore, splitText, pySplit, pySplitGo, isPySpace, chunks, chunkAux,
      joinSpace, segToxicScore, listMean, pyMax]
  have hr : predict (fun _ => [(4:ℚ)/5]) [0] 1 ("a".toList) =
      some ⟨"toxic", 4/5, "very_toxic", [4/5]⟩ := by
    simp [predict, splitText, pySplit, pySplitGo, isPySpace, chunks, chunkAux,
      joinSpace, segToxicScore, listMean, pyMax, round3, roundHalfEven,
      THRESHOLD_VERY_TOXIC, THRESHOLD_SLIGHTLY_TOXIC, ARTICLE_THRESHOLD,
      List.range_succ]
    norm_num [Int.fract]
  exact (predict_level_step _ [0] 1 _ (4/5) _ hs hr).2.2 (by norm_num) (by norm_num)

/-- C4: with the default `ARTICLE_THRESHOLD` of 0.5 the binary
`prediction` returned by `predict` is `toxic` exactly when the document
toxic score is at least 1/2; the field is a function of that one
threshold comparison alone, independent of the level classification. -/
theorem predict_binary_threshold (scorer : List Char → List ℚ) (toxicLabels : List Nat)
    (numLabels : Nat) (text : List Char) (s : ℚ) (r : PredictResult)
    (hs : docToxicScore scorer toxicLabels text = some s)
    (hr : predict scorer toxicLabels numLabels text = some r) :
    r.prediction = (if (1:ℚ)/2 ≤ s then "toxic" else "non_toxic") ∧
    (r.prediction = "toxic" ↔ (1:ℚ)/2 ≤ s) := by
  rw [docToxicScore] at hs
  simp only [predict] at hr
  rw [hs] at hr
  simp only [Option.some_inj] at hr
  subst hr
  constructor
  · rw [ARTICLE_THRESHOLD]
  · rw [ARTICLE_THRESHOLD]
    by_cases h : (1:ℚ)/2 ≤ s
    · simp [h]
    · simp [h]

/-- C4 witness: document score 4/5 is classified `toxic`. -/
theorem predict_binary_threshold_witness :
    (⟨"toxic", 4/5, "very_toxic", [4/5]⟩ : PredictResult).prediction =
      (if (1:ℚ)/2 ≤ 4/5 then "toxic" else "non_toxic") ∧
    ((⟨"toxic", 4/5, "very_toxic", [4/5]⟩ : PredictResult).prediction = "toxic" ↔
      (1:ℚ)/2 ≤ 4/5) := by
  have hs : docToxicScore (fun _ => [(4:ℚ)/5]) [0] ("a".toList) = some (4/5) := by
    simp [docToxicScore, splitText, pySplit, pySplitGo, isPySpace, chunks, chunkAux,
      joinSpace, segToxicScore, listMean, pyMax]
  have hr : predict (fun _ => [(4:ℚ)/5]) [0] 1 ("a".toList) =
      some ⟨"toxic", 4/5, "very_toxic", [4/5]⟩ := by
    simp [predict, splitText, pySplit, pySplitGo, isPySpace, chunks, chunkAux,
      joinSpace, segToxicScore, listMean, pyMax, round3, roundHalfEven,
      THRESHOLD_VERY_TOXIC, THRESHOLD_SLIGHTLY_TOXIC, ARTICLE_THRESHOLD,
      List.range_succ]
    norm_num [Int.fract]
  exact predict_binary_threshold _ [0] 1 _ (4/5) _ hs hr

/-- C10: `predict` requires a text with at least one non-whitespace
character: on an empty or whitespace-only text the segment list is empty
and the maximum is taken over an empty sequence, so no result is
produced (`none` models the raised `ValueError`); on any other text the
error branch is unreachable and a result is always returned. -/
theorem predict_blank_raises (scorer : List Char → List ℚ) (toxicLabels : List Nat)
    (numLabels : Nat) (text : List Char) :
    (text.all isPySpace = true → predict scorer toxicLabels numLabels text = none) ∧
    (text.all isPySpace = false → ∃ r, predict scorer toxicLabels numLabels text = some r) := by
  constructor
  · intro h
    have h0 : pySplit text = [] := (pySplit_eq_nil_iff text).mpr h
    simp only [predict]
    rw [splitText, h0]
    rfl
  · intro h
    have h0 : pySplit text ≠ [] := by
      intro hc
      rw [pySplit_eq_nil_iff] at hc
      rw [hc] at h
      simp at h
    have h1 : splitText text 100 ≠ [] := splitText_ne_nil text 100 h0
    obtain ⟨m, hm⟩ := pyMax_isSome
      (((splitText text 100).map scorer).map (segToxicScore toxicLabels)) (by simp [h1])
    suffices h2 : (predict scorer toxicLabels numLabels text).isSome = true by
      obtain ⟨r, hr⟩ := Option.isSome_iff_exists.mp h2
      exact ⟨r, hr⟩
    simp only [predict]
    rw [hm]
    rfl

/-- C10 witness: a whitespace-only text gets no result, a one-letter text
does. -/
theorem predict_blank_raises_witness :
    (predict (fun _ => [(1:ℚ)]) [0] 1 (" ".toList) = none) ∧
    (∃ r, predict (fun _ => [(1:ℚ)]) [0] 1 ("a".toList) = some r) :=
  ⟨(predict_blank_raises (fun _ => [(1:ℚ)]) [0] 1 (" ".toList)).1 (by decide),
   (predict_blank_raises (fun _ => [(1:ℚ)]) [0] 1 ("a".toList)).2 (by decide)⟩

/-! ### The prediction service (src/analytics/analytics.py) -/

/-- Python truthiness test `not content or not content.strip()`
(analytics.py lines 58 and 110): the text is empty or whitespace-only. -/
def isBlank (text : List Char) : Bool := text.all isPySpace

/-- An article record as read from the article store, with the fields
`predict_all_articles` uses (analytics.py lines 105-108). -/
structure Article where
  url : String
  title : String
  content : List Char
  site : String

/-- The prediction document built by `predict_text`
(analytics.py lines 62-69), minus the wall-clock timestamp. -/
structure TextPredictionDoc where
  text : List Char
  url : Option String
  prediction : String
  confidence : ℚ
  toxicity_level : String

/-- The dictionary returned by `predict_text`: which keys are present
and what they hold (analytics.py lines 59, 74, 76). -/
structure PredictTextOut where
  success : Option Bool
  error : Option String
  prediction : Option TextPredictionDoc

/-- `ToxicityPredictor.predict_text` (analytics.py lines 56-76).
`classify` is the classifier (total here: its caller guards the blank
input that would make it raise), `insertOk` says whether the MongoDB
insert succeeds. -/
def predictText (classify : List Char → PredictResult)
    (insertOk : TextPredictionDoc → Bool) (text : List Char) (url : Option String) :
    PredictTextOut :=
  if isBlank text then
    { success := none, error := some "Le texte ne peut pas être vide", prediction := none }
  else
    let result := classify text
    let doc : TextPredictionDoc :=
      { text := text.take 1000, url := url, prediction := result.prediction,
        confidence := result.confidence, toxicity_level := result.toxicity_level }
    if insertOk doc then
      { success := some true, error := none, prediction := some doc }
    else
      { success := some false, error := some "insert failed", prediction := some doc }

/-- The `stats` counter dictionary of `predict_all_articles`
(analytics.py lines 94-102). -/
structure BatchStats where
  processed : Nat
  success : Nat
  errors : Nat
  toxic : Nat
  non_toxic : Nat
  slightly_toxic : Nat
  very_toxic : Nat
deriving DecidableEq

def initStats : BatchStats := ⟨0, 0, 0, 0, 0, 0, 0⟩

/-- `stats[result["toxicity_level"]] += 1` (analytics.py line 133).
The classifier only ever produces the three level strings, so the
fall-through branch (a `KeyError` in Python) is unreachable in context. -/
def bumpLevel (stats : BatchStats) (level : String) : BatchStats :=
  if level = "non_toxic" then { stats with non_toxic := stats.non_toxic + 1 }
  else if level = "slightly_toxic" then { stats with slightly_toxic := stats.slightly_toxic + 1 }
  else if level = "very_toxic" then { stats with very_toxic := stats.very_toxic + 1 }
  else stats

/-- One iteration of the loop of `predict_all_articles`
(analytics.py lines 104-144). The classifier call at line 116 sits
OUTSIDE the `try` block, so a scorer failure (`Except.error`) propagates
out of the loop; only the `insert_one` at line 131 is guarded, its
failure modelled by `insertOk` returning `false` (the `except` arm at
lines 140-142). -/
def batchStep (classify : List Char → Except Unit PredictResult)
    (insertOk : Article → PredictResult → Bool)
    (stats : BatchStats) (article : Article) : Except Unit BatchStats :=
  if isBlank article.content then
    Except.ok { stats with processed := stats.processed + 1 }
  else
    match classify article.content with
    | Except.error e => Except.error e
    | Except.ok result =>
      let stats1 :=
        if insertOk article result then
          let s1 := { stats with success := stats.success + 1 }
          let s2 := bumpLevel s1 result.toxicity_level
          if result.prediction = "toxic" then { s2 with toxic := s2.toxic + 1 }
          else { s2 with non_toxic := s2.non_toxic + 1 }
        else { stats with errors := stats.errors + 1 }
      Except.ok { stats1 with processed := stats1.processed + 1 }

/-- `ToxicityPredictor.predict_all_articles` (analytics.py lines 78-146):
fold the loop body over the article list; an uncaught exception anywhere
aborts the whole run (`Except.error`), otherwise the final counters are
the summary printed at line 146. -/
def predictAllArticles (classify : List Char → Except Unit PredictResult)
    (insertOk : Article → PredictResult → Bool)
    (articles : List Article) : Except Unit BatchStats :=
  articles.foldlM (batchStep classify insertOk) initStats

/-- An article that gets scored and successfully persisted. -/
def persistedOk (classify : List Char → Except Unit PredictResult)
    (insertOk : Article → PredictResult → Bool) (a : Article) : Bool :=
  !isBlank a.content &&
    match classify a.content with
    | Except.ok r => insertOk a r
    | Except.error _ => false

/-- An article whose prediction insert fails (caught, counted as error). -/
def insertFailed (classify : List Char → Except Unit PredictResult)
    (insertOk : Article → PredictResult → Bool) (a : Article) : Bool :=
  !isBlank a.content &&
    match classify a.content with
    | Except.ok r => !insertOk a r
    | Except.error _ => false

/-- An article persisted with the given `toxicity_level`. -/
def persistedLevel (classify : List Char → Except Unit PredictResult)
    (insertOk : Article → PredictResult → Bool) (level : String) (a : Article) : Bool :=
  !isBlank a.content &&
    match classify a.content with
    | Except.ok r => insertOk a r && (r.toxicity_level == level)
    | Except.error _ => false

/-- An article persisted with binary prediction `toxic`. -/
def persistedToxic (classify : List Char → Except Unit PredictResult)
    (insertOk : Article → PredictResult → Bool) (a : Article) : Bool :=
  !isBlank a.content &&
    match classify a.content with
    | Except.ok r => insertOk a r && (r.prediction == "toxic")
    | Except.error _ => false

/-- An article persisted with binary prediction other than `toxic`. -/
def persistedNotToxic (classify : List Char → Except Unit PredictResult)
    (insertOk : Article → PredictResult → Bool) (a : Article) : Bool :=
  !isBlank a.content &&
    match classify a.content with
    | Except.ok r => insertOk a r && !(r.prediction == "toxic")
    | Except.error _ => false

/-! ### Accounting for one batch step -/

theorem batchStep_blank (classify : List Char → Except Unit PredictResult)
    (insertOk : Article → PredictResult → Bool) (stats : BatchStats) (a : Article)
    (hb : isBlank a.content = true) :
    batchStep classify insertOk stats a =
      Except.ok { stats with processed := stats.processed + 1 } := by
  simp [batchStep, hb]

theorem batchStep_ok (classify : List Char → Except Unit PredictResult)
    (insertOk : Article → PredictResult → Bool) (stats : BatchStats) (a : Article)
    (r : PredictResult) (hb : isBlank a.content = false)
    (hr : classify a.content = Except.ok r)
    (hlev : r.toxicity_level = "non_toxic" ∨ r.toxicity_level = "slightly_toxic" ∨
      r.toxicity_level = "very_toxic") :
    batchStep classify insertOk stats a = Except.ok
      { processed := stats.processed + 1
        success := stats.success + (if insertOk a r then 1 else 0)
        errors := stats.errors + (if insertOk a r then 0 else 1)
        toxic := stats.toxic + (if insertOk a r && r.prediction == "toxic" then 1 else 0)
        non_toxic := stats.non_toxic +
          (if insertOk a r && r.toxicity_level == "non_toxic" then 1 else 0) +
          (if insertOk a r && !(r.prediction == "toxic") then 1 else 0)
        slightly_toxic := stats.slightly_toxic +
          (if insertOk a r && r.toxicity_level == "slightly_toxic" then 1 else 0)
        very_toxic := stats.very_toxic +
          (if insertOk a r && r.toxicity_level == "very_toxic" then 1 else 0) } := by
  cases hio : insertOk a r with
  | false => simp [batchStep, hb, hr, hio]
  | true =>
    by_cases hp : r.prediction = "toxic" <;>
      rcases hlev with hl | hl | hl <;>
        simp [batchStep, hb, hr, hio, hl, hp, bumpLevel]

/-- Full accounting for a batch run in which the scorer never fails:
the run completes and every counter is characterised. -/
theorem batch_fold_spec (classify : List Char → Except Unit PredictResult)
    (insertOk : Article → PredictResult → Bool) :
    ∀ (articles : List Article) (stats : BatchStats),
      (∀ a ∈ articles, isBlank a.content = false →
        ∃ r, classify a.content = Except.ok r ∧
          (r.toxicity_level = "non_toxic" ∨ r.toxicity_level = "slightly_toxic" ∨
            r.toxicity_level = "very_toxic")) →
      ∃ s, List.foldlM (batchStep classify insertOk) stats articles = Except.ok s ∧
        s.processed = stats.processed + articles.length ∧
        s.success = stats.success + articles.countP (persistedOk classify insertOk) ∧
        s.errors = stats.errors + articles.countP (insertFailed classify insertOk) ∧
        s.toxic = stats.toxic + articles.countP (persistedToxic classify insertOk) ∧
        s.non_toxic = stats.non_toxic +
          articles.countP (persistedLevel classify insertOk "non_toxic") +
          articles.countP (persistedNotToxic classify insertOk) ∧
        s.slightly_toxic = stats.slightly_toxic +
          articles.countP (persistedLevel classify insertOk "slightly_toxic") ∧
        s.very_toxic = stats.very_toxic +
          articles.countP (persistedLevel classify insertOk "very_toxic") := by
  intro articles
  induction articles with
  | nil =>
    intro stats h
    exact ⟨stats, rfl, by simp, by simp, by simp, by simp, by simp, by simp, by simp⟩
  | cons a rest ih =>
    intro stats h
    have hrest := fun b hb => h b (List.mem_cons_of_mem a hb)
    by_cases hb : isBlank a.content = true
    · obtain ⟨s, hs, h1, h2, h3, h4, h5, h6, h7⟩ :=
        ih { stats with processed := stats.processed + 1 } hrest
      have ep : ∀ p : Article → Bool,
          (p = persistedOk classify insertOk ∨ p = insertFailed classify insertOk ∨
           p = persistedToxic classify insertOk ∨ p = persistedNotToxic classify insertOk ∨
           p = persistedLevel classify insertOk "non_toxic" ∨
           p = persistedLevel classify insertOk "slightly_toxic" ∨
           p = persistedLevel classify insertOk "very_toxic") → p a = false := by
        intro p hp
        rcases hp with h' | h' | h' | h' | h' | h' | h' <;>
          subst h' <;>
          simp [persistedOk, insertFailed, persistedToxic, persistedNotToxic,
            persistedLevel, hb]
      refine ⟨s, ?_, ?_, ?_, ?_, ?_, ?_, ?_, ?_⟩
      · rw [List.foldlM_cons, batchStep_blank classify insertOk stats a hb]
        exact hs
      · rw [h1]; dsimp only; simp; omega
      · rw [h2, List.countP_cons, ep _ (Or.inl rfl)]; simp
      · rw [h3, List.countP_cons, ep _ (Or.inr (Or.inl rfl))]; simp
      · rw [h4, List.countP_cons, ep _ (Or.inr (Or.inr (Or.inl rfl)))]; simp
      · rw [h5, List.countP_cons, ep _ (Or.inr (Or.inr (Or.inr (Or.inr (Or.inl rfl))))),
          List.countP_cons, ep _ (Or.inr (Or.inr (Or.inr (Or.inl rfl))))]
        simp
      · rw [h6, List.countP_cons,
          ep _ (Or.inr (Or.inr (Or.inr (Or.inr (Or.inr (Or.inl rfl))))))]
        simp
      · rw [h7, List.countP_cons,
          ep _ (Or.inr (Or.inr (Or.inr (Or.inr (Or.inr (Or.inr rfl))))))]
        simp
    · have hb' : isBlank a.content = false := by simpa using hb
      obtain ⟨r, hr, hlev⟩ := h a (List.mem_cons_self a rest) hb'
      obtain ⟨s, hs, h1, h2, h3, h4, h5, h6, h7⟩ := ih
        { processed := stats.processed + 1
          success := stats.success + (if insertOk a r then 1 else 0)
          errors := stats.errors + (if insertOk a r then 0 else 1)
          toxic := stats.toxic + (if insertOk a r && r.prediction == "toxic" then 1 else 0)
          non_toxic := stats.non_toxic +
            (if insertOk a r && r.toxicity_level == "non_toxic" then 1 else 0) +
            (if insertOk a r && !(r.prediction == "toxic") then 1 else 0)
          slightly_toxic := stats.slightly_toxic +
            (if insertOk a r && r.toxicity_level == "slightly_toxic" then 1 else 0)
          very_toxic := stats.very_toxic +
            (if insertOk a r && r.toxicity_level == "very_toxic" then 1 else 0) } hrest
      refine ⟨s, ?_, ?_, ?_, ?_, ?_, ?_, ?_, ?_⟩
      · rw [List.foldlM_cons, batchStep_ok classify insertOk stats a r hb' hr hlev]
        exact hs
      · rw [h1]; dsimp only; simp; omega
      · rw [h2, List.countP_cons]
        dsimp only
        simp only [persistedOk, hb', hr, Bool.not_false, Bool.true_and]
        cases insertOk a r <;> simp <;> omega
      · rw [h3, List.countP_cons]
        dsimp only
        simp only [insertFailed, hb', hr, Bool.not_false, Bool.true_and]
        cases insertOk a r <;> simp <;> omega
      · rw [h4, List.countP_cons]
        dsimp only
        simp only [persistedToxic, hb', hr, Bool.not_false, Bool.true_and]
        cases insertOk a r <;> cases hpt : r.prediction == "toxic" <;>
          simp [hpt] <;> omega
      · rw [h5, List.countP_cons, List.countP_cons]
        dsimp only
        simp only [persistedLevel, persistedNotToxic, hb', hr, Bool.not_false, Bool.true_and]
        cases insertOk a r <;> cases hpt : r.prediction == "toxic" <;>
          cases hnt : r.toxicity_level == "non_toxic" <;> simp [hpt, hnt] <;> omega
      · rw [h6, List.countP_cons]
        dsimp only
        simp only [persistedLevel, hb', hr, Bool.not_false, Bool.true_and]
        cases insertOk a r <;> cases hst : r.toxicity_level == "slightly_toxic" <;>
          simp [hst] <;> omega
      · rw [h7, List.countP_cons]
        dsimp only
        simp only [persistedLevel, hb', hr, Bool.not_false, Bool.true_and]
        cases insertOk a r <;> cases hvt : r.toxicity_level == "very_toxic" <;>
          simp [hvt] <;> omega

theorem batchStep_scorer_error (classify : List Char → Except Unit PredictResult)
    (insertOk : Article → PredictResult → Bool) (stats : BatchStats) (a : Article)
    (u : Unit) (hb : isBlank a.content = false)
    (he : classify a.content = Except.error u) :
    batchStep classify insertOk stats a = Except.error u := by
  simp [batchStep, hb, he]

theorem foldlM_batch_append (f : BatchStats → Article → Except Unit BatchStats) :
    ∀ (l1 l2 : List Article) (b : BatchStats),
      (l1 ++ l2).foldlM f b =
        match l1.foldlM f b with
        | Except.ok b2 => l2.foldlM f b2
        | Except.error e => Except.error e := by
  intro l1
  induction l1 with
  | nil => intro l2 b; rfl
  | cons x xs ih =>
    intro l2 b
    rw [List.cons_append, List.foldlM_cons, List.foldlM_cons]
    cases hfx : f b x with
    | error e => rfl
    | ok b2 =>
      show (xs ++ l2).foldlM f b2 = _
      rw [ih]
      rfl

/-- C1 counterexample: a batch of two articles in which the Segment
Scorer raises on the first article's content. The run aborts with the
uncaught exception: the second article is never processed and no summary
is produced, because the classifier call of analytics.py line 116 sits
outside the `try` block. -/
theorem scorer_failure_aborts_batch_cex :
    predictAllArticles
      (fun c => if c = "x".toList then Except.error ()
        else Except.ok ⟨"non_toxic", 0, "non_toxic", []⟩)
      (fun _ _ => true)
      [⟨"u1", "t1", "x".toList, "s"⟩, ⟨"u2", "t2", "y".toList, "s"⟩] =
      Except.error () := rfl

/-- C1 (amended): failures during persistence of one article's
prediction are caught, counted under `errors`, and the batch continues
to the end and produces its summary; but a failure raised by the Segment
Scorer while scoring an article's content is NOT caught — it aborts the
whole batch, leaving the remaining articles unprocessed and no summary. -/
theorem batch_failure_handling (classify : List Char → Except Unit PredictResult)
    (insertOk : Article → PredictResult → Bool) (articles : List Article) :
    ((∀ a ∈ articles, isBlank a.content = false →
        ∃ r, classify a.content = Except.ok r ∧
          (r.toxicity_level = "non_toxic" ∨ r.toxicity_level = "slightly_toxic" ∨
            r.toxicity_level = "very_toxic")) →
      ∃ s, predictAllArticles classify insertOk articles = Except.ok s ∧
        s.errors = articles.countP (insertFailed classify insertOk) ∧
        s.processed = articles.length) ∧
    (∀ (pre : List Article) (a : Article) (post : List Article),
      articles = pre ++ a :: post →
      isBlank a.content = false →
      classify a.content = Except.error () →
      (∀ b ∈ pre, isBlank b.content = false →
        ∃ r, classify b.content = Except.ok r ∧
          (r.toxicity_level = "non_toxic" ∨ r.toxicity_level = "slightly_toxic" ∨
            r.toxicity_level = "very_toxic")) →
      predictAllArticles classify insertOk articles = Except.error ()) := by
  constructor
  · intro hok
    obtain ⟨s, hs, h1, h2, h3, h4, h5, h6, h7⟩ :=
      batch_fold_spec classify insertOk articles initStats hok
    exact ⟨s, hs, by simpa [initStats] using h3, by simpa [initStats] using h1⟩
  · intro pre a post heq hb he hpre
    obtain ⟨s, hs, _⟩ := batch_fold_spec classify insertOk pre initStats hpre
    rw [predictAllArticles, heq, foldlM_batch_append, hs]
    show (a :: post).foldlM (batchStep classify insertOk) s = Except.error ()
    rw [List.foldlM_cons, batchStep_scorer_error classify insertOk s a () hb he]
    rfl

/-- C1 witness: a persistence failure is counted and the batch still
completes; a scorer failure on the only article aborts the run. -/
theorem batch_failure_handling_witness :
    (∃ s, predictAllArticles
        (fun _ => Except.ok ⟨"non_toxic", 0, "non_toxic", []⟩)
        (fun _ _ => false)
        [⟨"u", "t", "x".toList, "s"⟩] = Except.ok s ∧
      s.errors = [(⟨"u", "t", "x".toList, "s"⟩ : Article)].countP
        (insertFailed (fun _ => Except.ok ⟨"non_toxic", 0, "non_toxic", []⟩)
          (fun _ _ => false)) ∧
      s.processed = [(⟨"u", "t", "x".toList, "s"⟩ : Article)].length) ∧
    predictAllArticles (fun _ => Except.error ()) (fun _ _ => false)
      [⟨"u", "t", "x".toList, "s"⟩] = Except.error () :=
  ⟨(batch_failure_handling
      (fun _ => Except.ok ⟨"non_toxic", 0, "non_toxic", []⟩)
      (fun _ _ => false) [⟨"u", "t", "x".toList, "s"⟩]).1
    (fun a _ _ => ⟨_, rfl, Or.inl rfl⟩),
   (batch_failure_handling (fun _ => Except.error ()) (fun _ _ => false)
      [⟨"u", "t", "x".toList, "s"⟩]).2
    [] ⟨"u", "t", "x".toList, "s"⟩ [] rfl
    (by decide) rfl (fun b hb => absurd hb (List.not_mem_nil b))⟩

/-- C9 counterexample: one successfully persisted article whose
prediction is `slightly_toxic` at level but `non_toxic` at the binary
threshold. The loop increments BOTH the `slightly_toxic` counter (line
133) and the `non_toxic` counter (line 137), so the `non_toxic` counter
is 1 although no persisted prediction has toxicity_level `non_toxic`. -/
theorem non_toxic_counter_cex :
    predictAllArticles
      (fun _ => Except.ok ⟨"non_toxic", 2/5, "slightly_toxic", []⟩)
      (fun _ _ => true)
      [⟨"u", "t", "x".toList, "s"⟩] =
      Except.ok ⟨1, 1, 0, 0, 1, 1, 0⟩ ∧
    [(⟨"u", "t", "x".toList, "s"⟩ : Article)].countP
      (persistedLevel
        (fun _ => Except.ok ⟨"non_toxic", 2/5, "slightly_toxic", []⟩)
        (fun _ _ => true) "non_toxic") = 0 :=
  ⟨rfl, rfl⟩

theorem countP_blank_partition (l : List Article) :
    l.countP (fun a => !isBlank a.content) +
      l.countP (fun a => isBlank a.content) = l.length := by
  induction l with
  | nil => rfl
  | cons a rest ihp =>
    rw [List.countP_cons, List.countP_cons]
    cases isBlank a.content <;> simp <;> omega

/-- C9 (amended): after a batch run in which the scorer and every insert
succeed, the `slightly_toxic` and `very_toxic` counters equal the number
of persisted predictions of those levels, but the `non_toxic` counter
equals the persisted level-`non_toxic` count PLUS the number of persisted
predictions whose binary prediction is not `toxic` (lines 133 and 137
both touch it); `toxic` counts persisted binary-`toxic` predictions;
`processed` counts every iterated article including skipped blank ones;
and `success + errors + skipped = processed` with `errors = 0`. -/
theorem batch_counters (classify : List Char → Except Unit PredictResult)
    (insertOk : Article → PredictResult → Bool) (articles : List Article)
    (hok : ∀ a ∈ articles, isBlank a.content = false →
      ∃ r, classify a.content = Except.ok r ∧
        (r.toxicity_level = "non_toxic" ∨ r.toxicity_level = "slightly_toxic" ∨
          r.toxicity_level = "very_toxic"))
    (hins : ∀ a ∈ articles, ∀ r, insertOk a r = true) :
    ∃ s, predictAllArticles classify insertOk articles = Except.ok s ∧
      s.processed = articles.length ∧
      s.slightly_toxic = articles.countP (persistedLevel classify insertOk "slightly_toxic") ∧
      s.very_toxic = articles.countP (persistedLevel classify insertOk "very_toxic") ∧
      s.non_toxic = articles.countP (persistedLevel classify insertOk "non_toxic") +
        articles.countP (persistedNotToxic classify insertOk) ∧
      s.toxic = articles.countP (persistedToxic classify insertOk) ∧
      s.errors = 0 ∧
      s.success + s.errors + articles.countP (fun a => isBlank a.content) = s.processed := by
  obtain ⟨s, hs, h1, h2, h3, h4, h5, h6, h7⟩ :=
    batch_fold_spec classify insertOk articles initStats hok
  have herr : articles.countP (insertFailed classify insertOk) = 0 := by
    rw [List.countP_eq_zero]
    intro a ha
    rw [insertFailed]
    cases hba : isBlank a.content with
    | true => simp [hba]
    | false =>
      obtain ⟨r, hr, _⟩ := hok a ha hba
      simp [hba, hr, hins a ha r]
  have hsucc : articles.countP (persistedOk classify insertOk) =
      articles.countP (fun a => !isBlank a.content) := by
    apply List.countP_congr
    intro a ha
    rw [persistedOk]
    cases hba : isBlank a.content with
    | true => simp [hba]
    | false =>
      obtain ⟨r, hr, _⟩ := hok a ha hba
      simp [hba, hr, hins a ha r]
  have hpart := countP_blank_partition articles
  refine ⟨s, hs, ?_, ?_, ?_, ?_, ?_, ?_, ?_⟩
  · simpa [initStats] using h1
  · simpa [initStats] using h6
  · simpa [initStats] using h7
  · simpa [initStats] using h5
  · simpa [initStats] using h4
  · rw [h3, herr]; rfl
  · rw [h2, h3, h1, herr, hsucc]
    simp [initStats]
    omega

/-- C9 witness: one persisted `very_toxic`/`toxic` article. -/
theorem batch_counters_witness :
    ∃ s, predictAllArticles
        (fun _ => Except.ok ⟨"toxic", 9/10, "very_toxic", []⟩)
        (fun _ _ => true)
        [⟨"u", "t", "x".toList, "s"⟩] = Except.ok s ∧
      s.processed = [(⟨"u", "t", "x".toList, "s"⟩ : Article)].length ∧
      s.slightly_toxic = [(⟨"u", "t", "x".toList, "s"⟩ : Article)].countP
        (persistedLevel (fun _ => Except.ok ⟨"toxic", 9/10, "very_toxic", []⟩)
          (fun _ _ => true) "slightly_toxic") ∧
      s.very_toxic = [(⟨"u", "t", "x".toList, "s"⟩ : Article)].countP
        (persistedLevel (fun _ => Except.ok ⟨"toxic", 9/10, "very_toxic", []⟩)
          (fun _ _ => true) "very_toxic") ∧
      s.non_toxic = [(⟨"u", "t", "x".toList, "s"⟩ : Article)].countP
        (persistedLevel (fun _ => Except.ok ⟨"toxic", 9/10, "very_toxic", []⟩)
          (fun _ _ => true) "non_toxic") +
        [(⟨"u", "t", "x".toList, "s"⟩ : Article)].countP
        (persistedNotToxic (fun _ => Except.ok ⟨"toxic", 9/10, "very_toxic", []⟩)
          (fun _ _ => true)) ∧
      s.toxic = [(⟨"u", "t", "x".toList, "s"⟩ : Article)].countP
        (persistedToxic (fun _ => Except.ok ⟨"toxic", 9/10, "very_toxic", []⟩)
          (fun _ _ => true)) ∧
      s.errors = 0 ∧
      s.success + s.errors +
        [(⟨"u", "t", "x".toList, "s"⟩ : Article)].countP
          (fun a => isBlank a.content) = s.processed :=
  batch_counters (fun _ => Except.ok ⟨"toxic", 9/10, "very_toxic", []⟩)
    (fun _ _ => true) [⟨"u", "t", "x".toList, "s"⟩]
    (fun a _ _ => ⟨_, rfl, Or.inr (Or.inr rfl)⟩)
    (fun a _ r => rfl)

/-- C7: an empty or whitespace-only input makes the single-text entry
point return a structured error result carrying no prediction payload,
unchanged whatever the classifier or the store would do (neither is
consulted); the batch loop counts the same article as processed and
nothing else — not an error, not a success, not scored. -/
theorem empty_input_handling (text : List Char) (h : isBlank text = true) :
    (∀ (c1 c2 : List Char → PredictResult) (i1 i2 : TextPredictionDoc → Bool)
        (url1 url2 : Option String),
      (predictText c1 i1 text url1).prediction = none ∧
      (predictText c1 i1 text url1).error =
        some "Le texte ne peut pas être vide" ∧
      (predictText c1 i1 text url1).success = none ∧
      predictText c1 i1 text url1 = predictText c2 i2 text url2) ∧
    (∀ (classify : List Char → Except Unit PredictResult)
        (insertOk : Article → PredictResult → Bool) (s : BatchStats) (a : Article),
      a.content = text →
      batchStep classify insertOk s a =
        Except.ok { s with processed := s.processed + 1 }) := by
  constructor
  · intro c1 c2 i1 i2 url1 url2
    refine ⟨?_, ?_, ?_, ?_⟩ <;> simp [predictText, h]
  · intro classify insertOk s a ha
    rw [batchStep, ha, h]
    rfl

/-- C7 witness: the theorem applied to the whitespace-only text `" "`. -/
theorem empty_input_handling_witness :
    (∀ (c1 c2 : List Char → PredictResult) (i1 i2 : TextPredictionDoc → Bool)
        (url1 url2 : Option String),
      (predictText c1 i1 (" ".toList) url1).prediction = none ∧
      (predictText c1 i1 (" ".toList) url1).error =
        some "Le texte ne peut pas être vide" ∧
      (predictText c1 i1 (" ".toList) url1).success = none ∧
      predictText c1 i1 (" ".toList) url1 = predictText c2 i2 (" ".toList) url2) ∧
    (∀ (classify : List Char → Except Unit PredictResult)
        (insertOk : Article → PredictResult → Bool) (s : BatchStats) (a : Article),
      a.content = " ".toList →
      batchStep classify insertOk s a =
        Except.ok { s with processed := s.processed + 1 }) :=
  empty_input_handling (" ".toList) (by decide)

/-! ### Rounding bounds -/

theorem roundHalfEven_close (q : ℚ) : |(roundHalfEven q : ℚ) - q| ≤ 1/2 := by
  rw [roundHalfEven]
  have h0 : ((⌊q⌋ : ℤ) : ℚ) ≤ q := Int.floor_le q
  have h1 : q < (⌊q⌋ : ℚ) + 1 := Int.lt_floor_add_one q
  by_cases hlt : q - (⌊q⌋ : ℚ) < 1/2
  · rw [if_pos hlt, abs_le]
    constructor <;> linarith
  · rw [if_neg hlt]
    by_cases hgt : 1/2 < q - (⌊q⌋ : ℚ)
    · rw [if_pos hgt, abs_le]
      push_cast
      constructor <;> linarith
    · rw [if_neg hgt]
      by_cases hev : ⌊q⌋ % 2 = 0
      · rw [if_pos hev, abs_le]
        constructor <;> linarith
      · rw [if_neg hev, abs_le]
        push_cast
        constructor <;> linarith

theorem round2_close (q : ℚ) : |round2 q - q| ≤ 1/200 := by
  rw [round2]
  have h := roundHalfEven_close (q * 100)
  have e : (roundHalfEven (q * 100) : ℚ) / 100 - q =
      ((roundHalfEven (q * 100) : ℚ) - q * 100) / 100 := by ring
  rw [e, abs_div]
  have h100 : |(100 : ℚ)| = 100 := by norm_num
  rw [h100]
  rw [div_le_iff (by norm_num : (0:ℚ) < 100)]
  linarith

/-! ### Per-site statistics (analytics.py lines 148-186) -/

/-- A persisted prediction record, restricted to the two fields the
aggregation pipeline groups on. -/
structure PredRecord where
  site : String
  toxicity_level : String

/-- The per-site entry of the mapping built at analytics.py
lines 175-183. -/
structure SiteStats where
  total_articles : Nat
  non_toxic_count : Nat
  slightly_toxic_count : Nat
  very_toxic_count : Nat
  non_toxic_pct : ℚ
  slightly_toxic_pct : ℚ
  very_toxic_pct : ℚ

/-- `site_stats[site]["total"]`: the sum of the (site, level) group
counts for one site, i.e. the number of records of that site
(analytics.py line 169). -/
def siteTotal (records : List PredRecord) (s : String) : Nat :=
  records.countP (fun r => r.site == s)

/-- One `$group` count of the aggregation pipeline
(analytics.py lines 150-157). -/
def siteLevelCount (records : List PredRecord) (s level : String) : Nat :=
  records.countP (fun r => r.site == s && r.toxicity_level == level)

/-- `ToxicityPredictor.get_statistics_by_site`
(analytics.py lines 148-186): group by (site, toxicity_level), count,
sum into per-site totals, and attach percentages rounded to 2 decimal
places; a site only appears `if total > 0` (line 174), which holds for
every site drawn from the records. -/
def getStatisticsBySite (records : List PredRecord) : List (String × SiteStats) :=
  ((records.map (fun r => r.site)).dedup).filterMap (fun s =>
    if 0 < siteTotal records s then
      some (s,
        { total_articles := siteTotal records s
          non_toxic_count := siteLevelCount records s "non_toxic"
          slightly_toxic_count := siteLevelCount records s "slightly_toxic"
          very_toxic_count := siteLevelCount records s "very_toxic"
          non_toxic_pct :=
            round2 ((siteLevelCount records s "non_toxic" : ℚ) /
              (siteTotal records s : ℚ) * 100)
          slightly_toxic_pct :=
            round2 ((siteLevelCount records s "slightly_toxic" : ℚ) /
              (siteTotal records s : ℚ) * 100)
          very_toxic_pct :=
            round2 ((siteLevelCount records s "very_toxic" : ℚ) /
              (siteTotal records s : ℚ) * 100) })
    else none)

theorem siteLevelCount_partition (records : List PredRecord) (s : String)
    (h : ∀ r ∈ records, r.toxicity_level = "non_toxic" ∨
      r.toxicity_level = "slightly_toxic" ∨ r.toxicity_level = "very_toxic") :
    siteLevelCount records s "non_toxic" + siteLevelCount records s "slightly_toxic" +
      siteLevelCount records s "very_toxic" = siteTotal records s := by
  induction records with
  | nil => rfl
  | cons r rest ih =>
    have hr := h r (by simp)
    have ih2 := ih (fun x hx => h x (by simp [hx]))
    simp only [siteLevelCount, siteTotal, List.countP_cons] at ih2 ⊢
    cases hsite : r.site == s <;>
      rcases hr with hl | hl | hl <;>
        simp [hl, hsite] <;> omega

theorem getStatisticsBySite_keys (records : List PredRecord) :
    ∀ p ∈ getStatisticsBySite records, ∃ r ∈ records, r.site = p.1 := by
  intro p hp
  rw [getStatisticsBySite] at hp
  obtain ⟨s, hs, heq⟩ := List.mem_filterMap.mp hp
  by_cases h0 : 0 < siteTotal records s
  · rw [if_pos h0, Option.some_inj] at heq
    have hsm : s ∈ records.map (fun r => r.site) := List.mem_dedup.mp hs
    obtain ⟨r, hr, hrs⟩ := List.mem_map.mp hsm
    exact ⟨r, hr, by rw [hrs, ← heq]⟩
  · rw [if_neg h0] at heq
    exact absurd heq (Option.noConfusion)

/-- C5: per-site statistics. Under the hypothesis that every record's
level is one of the three classifier levels: for every site in the
result the three level counts sum to `total_articles`, the total is
positive (sites with zero records are absent), each percentage is the
corresponding count over total times 100 rounded to 2 decimals, and the
three percentages sum to 100 within 3/200 (the worst-case rounding
error); moreover a site with no records never appears as a key. -/
theorem getStatisticsBySite_invariants (records : List PredRecord)
    (h : ∀ r ∈ records, r.toxicity_level = "non_toxic" ∨
      r.toxicity_level = "slightly_toxic" ∨ r.toxicity_level = "very_toxic") :
    (∀ p ∈ getStatisticsBySite records,
      p.2.non_toxic_count + p.2.slightly_toxic_count + p.2.very_toxic_count =
        p.2.total_articles ∧
      0 < p.2.total_articles ∧
      p.2.non_toxic_pct =
        round2 ((p.2.non_toxic_count : ℚ) / (p.2.total_articles : ℚ) * 100) ∧
      p.2.slightly_toxic_pct =
        round2 ((p.2.slightly_toxic_count : ℚ) / (p.2.total_articles : ℚ) * 100) ∧
      p.2.very_toxic_pct =
        round2 ((p.2.very_toxic_count : ℚ) / (p.2.total_articles : ℚ) * 100) ∧
      |p.2.non_toxic_pct + p.2.slightly_toxic_pct + p.2.very_toxic_pct - 100| ≤
        3/200) ∧
    (∀ s : String, (∀ r ∈ records, r.site ≠ s) →
      ∀ p ∈ getStatisticsBySite records, p.1 ≠ s) := by
  constructor
  · intro p hp
    rw [getStatisticsBySite] at hp
    obtain ⟨s, hs, heq⟩ := List.mem_filterMap.mp hp
    by_cases h0 : 0 < siteTotal records s
    · rw [if_pos h0, Option.some_inj] at heq
      subst heq
      have hpart := siteLevelCount_partition records s h
      refine ⟨hpart, h0, rfl, rfl, rfl, ?_⟩
      dsimp only
      set n1 := siteLevelCount records s "non_toxic" with hn1
      set n2 := siteLevelCount records s "slightly_toxic" with hn2
      set n3 := siteLevelCount records s "very_toxic" with hn3
      set t := siteTotal records s with ht
      have htq : (0 : ℚ) < (t : ℚ) := by exact_mod_cast h0
      have hsum : (n1 : ℚ) / t * 100 + (n2 : ℚ) / t * 100 + (n3 : ℚ) / t * 100 = 100 := by
        have hc : (n1 : ℚ) + n2 + n3 = t := by exact_mod_cast hpart
        field_simp
        linarith
      have b1 := round2_close ((n1 : ℚ) / t * 100)
      have b2 := round2_close ((n2 : ℚ) / t * 100)
      have b3 := round2_close ((n3 : ℚ) / t * 100)
      rw [abs_le] at b1 b2 b3 ⊢
      constructor <;> linarith
    · rw [if_neg h0] at heq
      exact absurd heq (Option.noConfusion)
  · intro s hnone p hp hps
    obtain ⟨r, hr, hrs⟩ := getStatisticsBySite_keys records p hp
    exact hnone r hr (by rw [hrs, hps])

/-- C5 witness: three records over two sites. -/
theorem getStatisticsBySite_invariants_witness :
    (∀ p ∈ getStatisticsBySite
        [⟨"A", "non_toxic"⟩, ⟨"A", "very_toxic"⟩, ⟨"B", "slightly_toxic"⟩],
      p.2.non_toxic_count + p.2.slightly_toxic_count + p.2.very_toxic_count =
        p.2.total_articles ∧
      0 < p.2.total_articles ∧
      p.2.non_toxic_pct =
        round2 ((p.2.non_toxic_count : ℚ) / (p.2.total_articles : ℚ) * 100) ∧
      p.2.slightly_toxic_pct =
        round2 ((p.2.slightly_toxic_count : ℚ) / (p.2.total_articles : ℚ) * 100) ∧
      p.2.very_toxic_pct =
        round2 ((p.2.very_toxic_count : ℚ) / (p.2.total_articles : ℚ) * 100) ∧
      |p.2.non_toxic_pct + p.2.slightly_toxic_pct + p.2.very_toxic_pct - 100| ≤
        3/200) ∧
    (∀ s : String,
      (∀ r ∈ ([⟨"A", "non_toxic"⟩, ⟨"A", "very_toxic"⟩,
        ⟨"B", "slightly_toxic"⟩] : List PredRecord), r.site ≠ s) →
      ∀ p ∈ getStatisticsBySite
        [⟨"A", "non_toxic"⟩, ⟨"A", "very_toxic"⟩, ⟨"B", "slightly_toxic"⟩],
        p.1 ≠ s) :=
  getStatisticsBySite_invariants
    [⟨"A", "non_toxic"⟩, ⟨"A", "very_toxic"⟩, ⟨"B", "slightly_toxic"⟩]
    (by decide)

/-! ### Presentation view (analytics.py lines 211-239) -/

/-- The sort key of `display_statistics`
(analytics.py lines 223-227): combined toxicity percentage. -/
def combinedPct (st : SiteStats) : ℚ := st.slightly_toxic_pct + st.very_toxic_pct

/-- Stable descending insertion: `x` goes before the first element
whose key does not exceed it, preserving input order on ties —
the behaviour of Python `sorted(..., key=..., reverse=True)`. -/
def insertByCombined (x : String × SiteStats) :
    List (String × SiteStats) → List (String × SiteStats)
  | [] => [x]
  | y :: ys =>
    if combinedPct y.2 ≤ combinedPct x.2 then x :: y :: ys
    else y :: insertByCombined x ys

/-- `sorted(stats.items(), key=combined, reverse=True)`
(analytics.py lines 223-227). -/
def sortByCombined : List (String × SiteStats) → List (String × SiteStats)
  | [] => []
  | x :: xs => insertByCombined x (sortByCombined xs)

/-- `most_toxic = sorted_sites[0]` (analytics.py line 235): the first
entry of the sorted view, reported as the most toxic site. -/
def mostToxicSite (stats : List (String × SiteStats)) :
    Option (String × SiteStats) :=
  (sortByCombined stats).head?

theorem insertByCombined_ne_nil (x : String × SiteStats)
    (l : List (String × SiteStats)) : insertByCombined x l ≠ [] := by
  cases l with
  | nil => simp [insertByCombined]
  | cons y ys =>
    rw [insertByCombined]
    by_cases hc : combinedPct y.2 ≤ combinedPct x.2
    · rw [if_pos hc]; simp
    · rw [if_neg hc]; simp

theorem insertByCombined_head (x : String × SiteStats)
    (l : List (String × SiteStats)) :
    ∃ h, (insertByCombined x l).head? = some h ∧
      combinedPct x.2 ≤ combinedPct h.2 ∧
      ∀ y, l.head? = some y → combinedPct y.2 ≤ combinedPct h.2 := by
  cases l with
  | nil => exact ⟨x, rfl, le_refl _, by simp⟩
  | cons y ys =>
    rw [insertByCombined]
    by_cases hc : combinedPct y.2 ≤ combinedPct x.2
    · rw [if_pos hc]
      refine ⟨x, rfl, le_refl _, ?_⟩
      intro z hz
      have hz2 : some y = some z := hz
      rw [← Option.some_inj.mp hz2]
      exact hc
    · rw [if_neg hc]
      refine ⟨y, rfl, le_of_not_le hc, ?_⟩
      intro z hz
      have hz2 : some y = some z := hz
      rw [← Option.some_inj.mp hz2]

theorem sortByCombined_ne_nil (l : List (String × SiteStats)) (h : l ≠ []) :
    sortByCombined l ≠ [] := by
  cases l with
  | nil => exact absurd rfl h
  | cons x xs => exact insertByCombined_ne_nil x (sortByCombined xs)

theorem sortByCombined_head_max (l : List (String × SiteStats)) :
    ∀ m, (sortByCombined l).head? = some m →
      ∀ x ∈ l, combinedPct x.2 ≤ combinedPct m.2 := by
  induction l with
  | nil => intro m hm; simp [sortByCombined] at hm
  | cons a rest ih =>
    intro m hm x hx
    rw [sortByCombined] at hm
    obtain ⟨h, hh, hxa, hprev⟩ := insertByCombined_head a (sortByCombined rest)
    rw [hm] at hh
    rw [Option.some_inj] at hh
    subst hh
    rcases List.mem_cons.mp hx with hx | hx
    · subst hx; exact hxa
    · cases hrest : sortByCombined rest with
      | nil =>
        have : rest = [] := by
          by_contra hne
          exact sortByCombined_ne_nil rest hne hrest
        subst this
        simp at hx
      | cons b bs =>
        have hb : (sortByCombined rest).head? = some b := by rw [hrest]; rfl
        exact le_trans (ih b hb x hx) (hprev b hb)

/-- C8: the presentation view sorts sites in descending order of
`slightly_toxic_pct + very_toxic_pct` and reports the head of that
order as the most toxic site: the reported site's combined percentage
bounds every entry's, and for any two-entry statistics mapping whose
combined percentages differ strictly, the strictly larger entry is
listed first and reported as most toxic, whichever order the mapping
presents them in. -/
theorem display_most_toxic (stats : List (String × SiteStats)) :
    (∀ m, mostToxicSite stats = some m →
      ∀ x ∈ stats, combinedPct x.2 ≤ combinedPct m.2) ∧
    (∀ a b : String × SiteStats, combinedPct b.2 < combinedPct a.2 →
      (stats = [a, b] →
        sortByCombined stats = [a, b] ∧ mostToxicSite stats = some a) ∧
      (stats = [b, a] →
        sortByCombined stats = [a, b] ∧ mostToxicSite stats = some a)) := by
  constructor
  · intro m hm
    exact sortByCombined_head_max stats m hm
  · intro a b hab
    constructor
    · intro heq
      subst heq
      have hsort : sortByCombined [a, b] = [a, b] := by
        show insertByCombined a (insertByCombined b []) = [a, b]
        rw [show insertByCombined b ([] : List (String × SiteStats)) = [b] from rfl,
          insertByCombined, if_pos (le_of_lt hab)]
      exact ⟨hsort, by rw [mostToxicSite, hsort]; rfl⟩
    · intro heq
      subst heq
      have hsort : sortByCombined [b, a] = [a, b] := by
        show insertByCombined b (insertByCombined a []) = [a, b]
        rw [show insertByCombined a ([] : List (String × SiteStats)) = [a] from rfl,
          insertByCombined, if_neg (not_le.mpr hab)]
        rfl
      exact ⟨hsort, by rw [mostToxicSite, hsort]; rfl⟩

/-- C8 witness: the spec's scenario — site A with combined percentage
45, site B with 20 — in both presentation orders. -/
theorem display_most_toxic_witness :
    (sortByCombined [("A", ⟨10, 5, 3, 2, 55, 25, 20⟩),
        ("B", ⟨10, 8, 1, 1, 80, 10, 10⟩)] =
      [("A", ⟨10, 5, 3, 2, 55, 25, 20⟩), ("B", ⟨10, 8, 1, 1, 80, 10, 10⟩)] ∧
      mostToxicSite [("A", ⟨10, 5, 3, 2, 55, 25, 20⟩),
        ("B", ⟨10, 8, 1, 1, 80, 10, 10⟩)] =
        some ("A", ⟨10, 5, 3, 2, 55, 25, 20⟩)) ∧
    (sortByCombined [("B", ⟨10, 8, 1, 1, 80, 10, 10⟩),
        ("A", ⟨10, 5, 3, 2, 55, 25, 20⟩)] =
      [("A", ⟨10, 5, 3, 2, 55, 25, 20⟩), ("B", ⟨10, 8, 1, 1, 80, 10, 10⟩)] ∧
      mostToxicSite [("B", ⟨10, 8, 1, 1, 80, 10, 10⟩),
        ("A", ⟨10, 5, 3, 2, 55, 25, 20⟩)] =
        some ("A", ⟨10, 5, 3, 2, 55, 25, 20⟩)) :=
  ⟨((display_most_toxic [("A", ⟨10, 5, 3, 2, 55, 25, 20⟩),
      ("B", ⟨10, 8, 1, 1, 80, 10, 10⟩)]).2
      ("A", ⟨10, 5, 3, 2, 55, 25, 20⟩) ("B", ⟨10, 8, 1, 1, 80, 10, 10⟩)
      (by norm_num [combinedPct])).1 rfl,
   ((display_most_toxic [("B", ⟨10, 8, 1, 1, 80, 10, 10⟩),
      ("A", ⟨10, 5, 3, 2, 55, 25, 20⟩)]).2
      ("A", ⟨10, 5, 3, 2, 55, 25, 20⟩) ("B", ⟨10, 8, 1, 1, 80, 10, 10⟩)
      (by norm_num [combinedPct])).2 rfl⟩

end ToxicPipeline
